import Mathlib

/-!
# Verification of the refinebio smashing pipeline against its specification

Shallow embedding of three source files:
* `data_refinery_workers/processors/smasher.py` (the smashing pipeline),
* `data_refinery_foreman/surveyor/transcriptome_index.py` (Ensembl URL builders),
* `data_refinery_workers/downloaders/array_express.py` (batch grouping check).

A pandas `DataFrame` indexed by feature identifier is modelled as a `Frame`: a
list of column labels together with a list of rows, each row being an index
label paired with the row's values.  `df.merge(other, how='inner',
left_index=True, right_index=True)` is a database-style inner join on the row
index: every left row is paired with every right row carrying the same label
(so duplicated index labels produce the cartesian combinations, exactly as in
pandas), and the joined row carries the left columns followed by the right
columns.
-/

namespace Refinebio

/-- A pandas DataFrame: column labels plus rows of (index label, values).
Values are modelled as integers; none of the verified properties depend on
the numeric domain. -/
structure Frame where
  cols : List String
  rows : List (String × List Int)
deriving Repr, DecidableEq

/-- The row-index labels of a frame (`df.index`). -/
def labels (f : Frame) : List String :=
  f.rows.map Prod.fst

/-- The value matrix of a frame, one list per row (`df.values`). -/
def matrixValues (f : Frame) : List (List Int) :=
  f.rows.map Prod.snd

/-- Rows of the pandas inner join on the row index: each left row is paired
with every right row sharing its label, keeping left order (then right order),
and concatenating the value lists. -/
def mergeRows (R : List (String × List Int)) : List (String × List Int) → List (String × List Int)
  | [] => []
  | r :: rs =>
    ((R.filter (fun q => q.1 = r.1)).map (fun q => (r.1, r.2 ++ q.2))) ++ mergeRows R rs

/-- `left.merge(right, how='inner', left_index=True, right_index=True)`. -/
def mergeFrames (L R : Frame) : Frame :=
  { cols := L.cols ++ R.cols, rows := mergeRows R.rows L.rows }

/-- `frame.columns[0]` wrapped in try/except: the singleton lead column when
the frame has any column, and nothing when `frame.columns[0]` raises. -/
def leadCol (f : Frame) : List String :=
  match f.cols with
  | [] => []
  | c :: _ => [c]

/-- The `while` loop of `_inner_join`, carried verbatim: `merged` and
`merged_backup` are the loop variables, `uns` is
`job_context['unsmashable_files']`.  (`old_len_merged` only feeds a warning
log and never affects state, so it is omitted.)  Per iteration: if any
candidate column is already present, `continue`; otherwise inner-join; if the
join has zero rows restore `merged_backup` and append the candidate's lead
column to the unsmashable list; finally `merged_backup` is reassigned to
`merged`. -/
def innerJoinGo : List Frame → Frame → Frame → List String → Frame × List String
  | [], merged, _backup, uns => (merged, uns)
  | frame :: rest, merged, backup, uns =>
    if frame.cols.any (fun c => merged.cols.contains c) then
      innerJoinGo rest merged backup uns
    else
      let m2 := mergeFrames merged frame
      if m2.rows.length = 0 then
        innerJoinGo rest backup backup (uns ++ leadCol frame)
      else
        innerJoinGo rest m2 m2 uns

/-- `_inner_join`: seeds the accumulator (and its backup) with
`all_frames[0]` and folds the remaining frames through the loop.  Returns the
merged frame together with the updated unsmashable list. -/
def inner_join (first : Frame) (rest : List Frame) (uns : List String) : Frame × List String :=
  innerJoinGo rest first first uns

/-- Instrumented variant of the `_inner_join` loop that additionally records
the frames actually *accepted* (neither skipped for a duplicate column nor
rolled back after a zero-row join).  State-wise it performs exactly the same
steps as `innerJoinGo` with `backup = merged`. -/
def innerJoinAccGo : List Frame → Frame → List String → List Frame → Frame × List String × List Frame
  | [], merged, uns, acc => (merged, uns, acc)
  | frame :: rest, merged, uns, acc =>
    if frame.cols.any (fun c => merged.cols.contains c) then
      innerJoinAccGo rest merged uns acc
    else
      let m2 := mergeFrames merged frame
      if m2.rows.length = 0 then
        innerJoinAccGo rest merged (uns ++ leadCol frame) acc
      else
        innerJoinAccGo rest m2 uns (acc ++ [frame])

/-- `_inner_join` with the list of accepted frames exposed; the seed frame is
always accepted. -/
def inner_join_accepted (first : Frame) (rest : List Frame) (uns : List String) :
    Frame × List String × List Frame :=
  innerJoinAccGo rest first uns [first]

/-! ## Scaler (`_smash_key`, lines 257-277)

`merged.transpose()` in pandas: rows become columns.  `transpose f` has one
column per row of `f` (labelled by the row's index label) and one row per
column of `f` (labelled by the column label); a ragged frame is padded with
`0`, which never happens for a real DataFrame (they are rectangular). -/

/-- `df.transpose()`. -/
def transpose (f : Frame) : Frame :=
  { cols := f.rows.map Prod.fst,
    rows := f.cols.enum.map (fun p => (p.2, f.rows.map (fun r => r.2.getD p.1 0))) }

/-- `pd.DataFrame(values, index=index, columns=columns)`. -/
def mkDataFrame (vals : List (List Int)) (index : List String) (cols : List String) : Frame :=
  { cols := cols, rows := index.zip vals }

/-- The transpose / scale / untranspose block of `_smash_key`.  The sklearn
scaler (`MINMAX` / `STANDARD` / `ROBUST`, an external numerical collaborator)
is an opaque transform `tr` on the value matrix; the code fits it on the
transposed frame, rebuilds a DataFrame with the transposed frame's index and
columns, and transposes back.  With `scale_by = "NONE"` the code takes the
`transposed.transpose()` branch. -/
def smash_scale (tr : List (List Int) → List (List Int)) (scale_by : String)
    (merged : Frame) : Frame :=
  let transposed := transpose merged
  if scale_by ≠ "NONE" then
    let scaled := mkDataFrame (tr (matrixValues transposed)) (labels transposed) transposed.cols
    transpose scaled
  else
    transpose transposed

/-! ## Job context and the pipeline stages of `smasher.py`

External collaborators (S3, SES, slack, the R quantile-normalization call,
file reads and archive writes) are modelled as outcome parameters; the Django
model mutations (`dataset.success`, `failure_reason`, `save()`) are explicit
state.  `saved_datasets` records the snapshot persisted by each
`dataset.save()` call, and `success_trace` records, in order, every value
assigned to `dataset.success` during the run (instrumentation used to state
the monotonicity claim). -/

/-- Outcome of the external quantile-normalization call in `_smash_key`:
either a normalized frame in `merged_qn`, or a failure message (an exception
from `smashing_utils.quantile_normalize`, or the `AssertionError` raised when
`merged_qn` is absent). -/
inductive QNOutcome where
  | ok (m : Frame)
  | err (msg : String)
deriving Repr, DecidableEq

/-- The `Dataset` model fields touched by the smasher. -/
structure DatasetRec where
  pk : Nat := 0
  success : Option Bool := none
  failure_reason : String := ""
  email_address : String := ""
  quantile_normalize : Bool := false
  quant_sf_only : Bool := false
  scale_by : String := "NONE"
  aggregate_by : String := "ALL"
  s3_bucket : String := ""
  s3_key : String := ""
  is_processing : Bool := true
  is_processed : Bool := false
  is_available : Bool := false
deriving Repr, DecidableEq

/-- The `ProcessorJob` model fields touched by the smasher.  An unset Django
`failure_reason` is the empty string (the code tests it with `if not ...`). -/
structure JobRec where
  success : Option Bool := none
  failure_reason : String := ""
deriving Repr, DecidableEq

/-- The mutable `job_context` dictionary threaded through the stages, plus
the two instrumentation lists described above. -/
structure Ctx where
  dataset : DatasetRec
  job : JobRec := {}
  upload_flag : Bool := true
  running_in_cloud : Bool := true
  success : Option Bool := none
  failure_reason : Option String := none
  unsmashable_files : List String := []
  num_samples : Nat := 0
  all_frames : List Frame := []
  original_merged : Option Frame := none
  merged_no_qn : Option Frame := none
  final_frame : Option Frame := none
  smash_outfile : Option String := none
  output_file : Option String := none
  result_url : Option String := none
  saved_datasets : List DatasetRec := []
  success_trace : List Bool := []
deriving Repr, DecidableEq

/-- `job_context['dataset'].success = b`, recorded in the trace. -/
def setDatasetSuccess (c : Ctx) (b : Bool) : Ctx :=
  { c with dataset := { c.dataset with success := some b },
           success_trace := c.success_trace ++ [b] }

/-- `job_context['dataset'].save()`: persist the current dataset snapshot. -/
def saveDataset (c : Ctx) : Ctx :=
  { c with saved_datasets := c.saved_datasets ++ [c.dataset] }

/-- The tail of `_smash_key` after a merged frame is in hand: transpose,
scale, untranspose, stash `final_frame`, and record the output path (the
actual `to_csv` write is external I/O). -/
def smashFinish (tr : List (List Int) → List (List Int)) (key : String)
    (merged : Frame) (c : Ctx) : Ctx :=
  { c with final_frame := some (smash_scale tr c.dataset.scale_by merged),
           smash_outfile := some (key ++ "/" ++ key ++ ".tsv") }

/-- `_smash_key(job_context, key, input_files)`.  File loading
(`process_frames_for_key`) is external I/O, so the per-key input is given as
the list of already-parsed frames (all files readable).  The
quantile-normalization outcome `qn` and the sklearn transform `tr` stand for
the external collaborators. -/
def smash_key (qn : QNOutcome) (tr : List (List Int) → List (List Int))
    (key : String) (frames : List Frame) (c : Ctx) : Ctx :=
  if c.dataset.quant_sf_only then
    { c with num_samples := c.num_samples + frames.length }
  else
    let c := { c with original_merged := none, all_frames := frames }
    match frames with
    | [] => c
    | f0 :: rest =>
      let p := inner_join f0 rest c.unsmashable_files
      let c := { c with unsmashable_files := p.2, original_merged := some p.1 }
      if c.dataset.quantile_normalize then
        match qn with
        | QNOutcome.ok mqn =>
          smashFinish tr key mqn { c with merged_no_qn := some p.1 }
        | QNOutcome.err msg =>
          let c := { c with merged_no_qn := some p.1 }
          let c := setDatasetSuccess c false
          let c :=
            if c.job.failure_reason = "" then
              { c with job := { c.job with failure_reason := "Failure reason: " ++ msg },
                       dataset := { c.dataset with failure_reason := "Failure reason: " ++ msg } }
            else c
          let c := saveDataset c
          { c with job := { c.job with success := some false }, failure_reason := some msg }
      else
        smashFinish tr key p.1 c

/-- `_smash_all(job_context)`.  `inputs` is the `input_files` mapping as an
association list of key, QN outcome and loaded frames; `archive` is the
outcome of the external `write_non_data_files` plus `shutil.make_archive`
calls (the `except` branch of the big `try`). -/
def smash_all (inputs : List (String × QNOutcome × List Frame))
    (tr : List (List Int) → List (List Int)) (archive : Except String Unit)
    (c : Ctx) : Ctx :=
  if c.job.success = some false then c
  else
    let c := { c with unsmashable_files := [], num_samples := 0 }
    let c := inputs.foldl (fun c kqf => smash_key kqf.2.1 tr kqf.1 kqf.2.2 c) c
    match archive with
    | Except.error e =>
      let c := setDatasetSuccess c false
      let c := { c with job := { c.job with failure_reason := "Failure reason: " ++ e },
                        dataset := { c.dataset with failure_reason := "Failure reason: " ++ e } }
      let c := saveDataset c
      { c with job := { c.job with success := some false }, failure_reason := some e }
    | Except.ok _ =>
      let zipName := "/home/user/data_store/smashed/" ++ toString c.dataset.pk ++ ".zip"
      let c := { c with output_file := some zipName }
      let c := setDatasetSuccess c true
      saveDataset c

/-- Last component of `path.split('/')`. -/
def lastPathComponent (s : String) : String :=
  (s.splitOn "/").getLastD ""

/-- `_upload(job_context)`.  `uploadResult` is the outcome of the external S3
block (`upload_file` through `dataset.save()`); its `except` branch sets the
job unsuccessful.  The dataset size/sha fields come from external file reads
and are omitted. -/
def upload (uploadResult : Except String Unit) (c : Ctx) : Ctx :=
  match c.output_file with
  | none => c
  | some file =>
    if c.upload_flag && c.running_in_cloud then
      match uploadResult with
      | Except.ok _ =>
        let key := lastPathComponent file
        let c := { c with
          result_url := some ("https://s3.amazonaws.com/refinebio-results-bucket/" ++ key),
          dataset := { c.dataset with s3_bucket := "refinebio-results-bucket", s3_key := key } }
        saveDataset c
      | Except.error e =>
        { c with job := { c.job with success := some false,
                                     failure_reason := "Failure reason: " ++ e } }
    else c

/-- Outcome of the external SES `send_email` call in `_notify_send_email`. -/
inductive EmailOutcome where
  | ok
  | clientError (msg : String)
  | genError
deriving Repr, DecidableEq

/-- `_notify(job_context)`.  A slack-notification failure is logged and
swallowed with no effect on the context (hence the unused outcome); an email
failure is re-raised as a `ProcessorJobError` (`Except.error`).  On the
email success path, `_notify_send_email` sets `job_context['success'] =
False` when the job had failed. -/
def notify (_slack : Except String Unit) (emailResult : EmailOutcome) (c : Ctx) :
    Except String Ctx :=
  if !(c.upload_flag && c.running_in_cloud) then Except.ok c
  else if c.dataset.email_address ≠ "" then
    match emailResult with
    | EmailOutcome.ok =>
      if c.job.success = some false then Except.ok { c with success := some false }
      else Except.ok c
    | EmailOutcome.clientError _ => Except.error "ClientError while notifying"
    | EmailOutcome.genError => Except.error "General failure when trying to send email."
  else Except.ok c

/-- `_update_result_objects(job_context)`. -/
def update_result_objects (c : Ctx) : Ctx :=
  let c := { c with dataset := { c.dataset with is_processing := false,
                                                is_processed := true,
                                                is_available := true } }
  let c := saveDataset c
  { c with success := some true }

/-- The smasher stages of `smash(job_id)` that live in this file, in pipeline
order: `_smash_all`, `_upload`, `_update_result_objects`, then `_notify`
(which `smash` always calls after the pipeline).  `utils.start_job`,
`smashing_utils.prepare_files` and `utils.end_job` are external to the
excerpt. -/
def smash_run (inputs : List (String × QNOutcome × List Frame))
    (tr : List (List Int) → List (List Int)) (archive : Except String Unit)
    (uploadResult : Except String Unit) (slack : Except String Unit)
    (emailResult : EmailOutcome) (c : Ctx) : Except String Ctx :=
  notify slack emailResult
    (update_result_objects (upload uploadResult (smash_all inputs tr archive c)))

/-- A trace of assignments to `Dataset.success` is monotone when no `true`
assignment ever follows a `false` one. -/
def successTraceMonotone : List Bool → Bool
  | [] => true
  | true :: r => successTraceMonotone r
  | false :: r => r.all (fun b => b = false)

/-! ## Ensembl URL builders (`transcriptome_index.py`) -/

/-- The keys of the species dictionary parsed from the Division API that the
builders read.  The base builder reads `assembly_name`, `name` and
`taxonomy_id`; `MainEnsemblUrlBuilder` reads `assembly` and `taxon_id`
instead, and the Protists/Fungi builders additionally read `species`. -/
structure Species where
  name : String := ""
  assembly_name : String := ""
  taxonomy_id : Nat := 0
  species : String := ""
  assembly : String := ""
  taxon_id : Nat := 0
deriving Repr, DecidableEq

/-- The fields a constructed url-builder instance carries.  `url_root` is
stored already formatted with the release fetched from the Ensembl REST API
(an external call, passed in as `release`). -/
structure UrlBuilderState where
  url_root : String
  assembly : String
  assembly_version : String
  species_sub_dir : String
  filename_species : String
  taxonomy_id : Nat
  scientific_name : String
deriving Repr, DecidableEq

/-- Python `str.capitalize()`: first character uppercased, the rest
lowercased. -/
def pyCapitalize (s : String) : String :=
  match s.data with
  | [] => ""
  | c :: cs => String.mk (c.toUpper :: cs.map Char.toLower)

/-- `EnsemblUrlBuilder.__init__(self, species)` (the base class). -/
def EnsemblUrlBuilder_init (release : String) (s : Species) : UrlBuilderState :=
  { url_root := "ensembl.org/pub/release-" ++ release
    assembly := s.assembly_name
    assembly_version := release
    species_sub_dir := s.name
    filename_species := pyCapitalize s.name
    taxonomy_id := s.taxonomy_id
    scientific_name := (pyCapitalize s.name).replace "_" " " }

/-- `MainEnsemblUrlBuilder.__init__` (never called by the factory; it also
references an undefined `MAIN_RELEASE_URL` global). -/
def MainEnsemblUrlBuilder_init (release : String) (s : Species) : UrlBuilderState :=
  { url_root := "ensembl.org/pub/release-" ++ release
    assembly := s.assembly
    assembly_version := release
    species_sub_dir := s.name
    filename_species := pyCapitalize s.name
    taxonomy_id := s.taxon_id
    scientific_name := (pyCapitalize s.name).replace "_" " " }

/-- `EnsemblProtistsUrlBuilder.__init__`: base init, then `filename_species`
is recomputed from the `species` key. -/
def EnsemblProtistsUrlBuilder_init (release : String) (s : Species) : UrlBuilderState :=
  { EnsemblUrlBuilder_init release s with filename_species := pyCapitalize s.species }

/-- `EnsemblFungiUrlBuilder.__init__`: Protists init, then the `TIGR`
assembly is renamed `CADRE`. -/
def EnsemblFungiUrlBuilder_init (release : String) (s : Species) : UrlBuilderState :=
  let b := EnsemblProtistsUrlBuilder_init release s
  if b.assembly = "TIGR" then { b with assembly := "CADRE" } else b

/-- `ensembl_url_builder_factory(species)`: despite its docstring, it always
constructs the base `EnsemblUrlBuilder`. -/
def ensembl_url_builder_factory (release : String) (s : Species) : UrlBuilderState :=
  EnsemblUrlBuilder_init release s

/-- `EnsemblUrlBuilder.build_gtf_url(self)`: `GTF_URL_TEMPLATE` formatted
with the builder's fields. -/
def build_gtf_url (b : UrlBuilderState) : String :=
  "ftp://ftp." ++ b.url_root ++ "/gtf/" ++ b.species_sub_dir ++ "/" ++
    b.filename_species ++ "." ++ b.assembly ++ "." ++ b.assembly_version ++ ".gtf.gz"

/-! ## Batch grouping check (`array_express.py`) -/

/-- The one `Batch` field `_verify_batch_grouping` reads. -/
structure Batch where
  download_url : String
deriving Repr, DecidableEq

/-- The loop body of `_verify_batch_grouping`: walk the batches and raise
`ValueError` at the first one whose url differs from the first batch's. -/
def verifyLoop (u0 : String) : List Batch → Except String Unit
  | [] => Except.ok ()
  | b :: bs =>
    if b.download_url ≠ u0 then
      Except.error "A batch doesn't have the same download url as other batches."
    else verifyLoop u0 bs

/-- `_verify_batch_grouping(batches, job_id)`: for an empty list the loop
body never runs (and `batches[0]` is never evaluated), otherwise every batch
is compared against `batches[0].download_url`.  The function only reads the
batches; it never modifies them. -/
def verify_batch_grouping : List Batch → Except String Unit
  | [] => Except.ok ()
  | b0 :: bs => verifyLoop b0.download_url (b0 :: bs)

/-! ## Concrete frames and contexts used by the closed theorems -/

/-- Single-sample frame with features A, B. -/
def frameAB : Frame := { cols := ["s1"], rows := [("A", [1]), ("B", [2])] }

/-- Single-sample frame with features C, D (disjoint from `frameAB`). -/
def frameCD : Frame := { cols := ["s2"], rows := [("C", [3]), ("D", [4])] }

/-- Frame whose row index repeats the feature label A. -/
def dupRowsF : Frame := { cols := ["s1"], rows := [("A", [1]), ("A", [2])] }

/-- Second frame repeating the feature label A, columns disjoint from
`dupRowsF`. -/
def dupRowsG : Frame := { cols := ["s2"], rows := [("A", [3]), ("A", [4])] }

/-- Frames with overlapping feature sets used by witnesses. -/
def frameBC : Frame := { cols := ["t1"], rows := [("B", [5]), ("C", [6])] }

/-- Companion to `frameBC`: shares feature B only. -/
def frameBD : Frame := { cols := ["t2"], rows := [("B", [7]), ("D", [8])] }

/-- A single-key, single-frame dataset run whose quantile normalization
fails while archiving succeeds. -/
def qnFailCtx : Ctx :=
  { dataset := { pk := 1, quantile_normalize := true } }

/-- The context produced by `_smash_all` on `qnFailCtx` when the QN call for
the only key fails and the archive step succeeds. -/
def qnFailRun : Ctx :=
  smash_all [("KEY", QNOutcome.err "qn exploded", [frameAB])] id (Except.ok ()) qnFailCtx

/-- A context entering `_smash_key` with a failure reason already recorded
from an earlier failure. -/
def secondFailCtx : Ctx :=
  { dataset := { quantile_normalize := true, failure_reason := "Failure reason: first" },
    job := { failure_reason := "Failure reason: first" } }

/-- `_smash_key` on `secondFailCtx` when QN fails again with a new detail. -/
def secondFailRun : Ctx :=
  smash_key (QNOutcome.err "second") id "KEY" [frameAB] secondFailCtx

/-- A successful context about to enter `_upload`. -/
def preUploadCtx : Ctx :=
  { dataset := { pk := 1 }, job := { success := some true },
    output_file := some "/home/user/data_store/smashed/1.zip" }

/-- `_upload` on `preUploadCtx` when the S3 upload raises. -/
def uploadFailRun : Ctx :=
  upload (Except.error "upload failed") preUploadCtx

/-- Like `preUploadCtx` but with a requester email address on the dataset. -/
def preUploadCtxEmail : Ctx :=
  { dataset := { pk := 1, email_address := "user@example.com" },
    job := { success := some true },
    output_file := some "/home/user/data_store/smashed/1.zip" }

/-- `qnFailRun` pushed through the remaining smasher pipeline stages
(`_upload` with a successful S3 call, then `_update_result_objects`). -/
def qnFailAfterStages : Ctx :=
  update_result_objects (upload (Except.ok ()) qnFailRun)

/-!
# Theorems
-/

/-- In the source, `merged_backup` equals `merged` at the top of every
iteration (it is initialised to `merged` and reassigned to `merged` at the end
of every non-`continue` iteration, and a `continue` leaves both unchanged), so
the instrumented loop computes the same frame and unsmashable list as
`_inner_join`. -/
theorem innerJoinAccGo_eq (rest : List Frame) :
    ∀ (m : Frame) (uns : List String) (acc : List Frame),
      ((innerJoinAccGo rest m uns acc).1, (innerJoinAccGo rest m uns acc).2.1)
        = innerJoinGo rest m m uns := by
  induction rest with
  | nil => intro m uns acc; rfl
  | cons frame rest ih =>
    intro m uns acc
    by_cases hdup : frame.cols.any (fun c => m.cols.contains c)
    · simp only [innerJoinAccGo, innerJoinGo, hdup, if_true]
      exact ih m uns acc
    · by_cases hz : (mergeFrames m frame).rows.length = 0
      · simp only [innerJoinAccGo, innerJoinGo, hdup, if_false, hz, if_true]
        exact ih m (uns ++ leadCol frame) acc
      · simp only [innerJoinAccGo, innerJoinGo, hdup, if_false, hz]
        exact ih (mergeFrames m frame) uns (acc ++ [frame])

/-- Every row label of the join is a row label of the left operand's rows. -/
theorem mem_labels_mergeRows_left {k : String} (R : List (String × List Int)) :
    ∀ rs : List (String × List Int),
      k ∈ (mergeRows R rs).map Prod.fst → k ∈ rs.map Prod.fst := by
  intro rs
  induction rs with
  | nil => simp [mergeRows]
  | cons r rs ih =>
    intro h
    simp only [mergeRows, List.map_append, List.mem_append, List.map_map, List.mem_map,
      Function.comp] at h
    simp only [List.map_cons, List.mem_cons]
    rcases h with ⟨q, _, hk⟩ | h
    · exact Or.inl hk.symm
    · exact Or.inr (ih (by simpa using h))

/-- Every row label of the join is a row label of the right operand's rows. -/
theorem mem_labels_mergeRows_right {k : String} (R : List (String × List Int)) :
    ∀ rs : List (String × List Int),
      k ∈ (mergeRows R rs).map Prod.fst → k ∈ R.map Prod.fst := by
  intro rs
  induction rs with
  | nil => simp [mergeRows]
  | cons r rs ih =>
    intro h
    simp only [mergeRows, List.map_append, List.mem_append, List.map_map, List.mem_map,
      Function.comp] at h
    rcases h with ⟨q, hq, hk⟩ | h
    · have hq' := List.mem_filter.mp hq
      have hlbl : q.1 = r.1 := by simpa using hq'.2
      exact List.mem_map.mpr ⟨q, hq'.1, by simpa [hlbl] using hk⟩
    · exact ih (by simpa using h)

/-- With duplicate-free labels on the right operand, at most one row carries
any given label. -/
theorem length_filter_label_le_one (k : String) :
    ∀ R : List (String × List Int),
      (R.map Prod.fst).Nodup → (R.filter (fun q => q.1 = k)).length ≤ 1 := by
  intro R
  induction R with
  | nil => simp
  | cons q R ih =>
    intro h
    rw [List.map_cons] at h
    obtain ⟨hq, hR⟩ := List.nodup_cons.mp h
    by_cases hqk : q.1 = k
    · have hnil : R.filter (fun q => q.1 = k) = [] := by
        refine List.filter_eq_nil_iff.mpr ?_
        intro b hb hbk
        have hbk' : b.1 = k := by simpa using hbk
        exact hq (List.mem_map.mpr ⟨b, hb, hbk'.trans hqk.symm⟩)
      simp [List.filter_cons, hqk, hnil]
    · simpa [List.filter_cons, hqk] using ih hR

/-- With duplicate-free labels on the right operand, the labels of the join
form a sublist of the left operand's labels: the join keeps or shrinks the
row list. -/
theorem labels_mergeRows_sublist (R : List (String × List Int))
    (h : (R.map Prod.fst).Nodup) :
    ∀ rs : List (String × List Int),
      List.Sublist ((mergeRows R rs).map Prod.fst) (rs.map Prod.fst) := by
  intro rs
  induction rs with
  | nil => simp [mergeRows]
  | cons r rs ih =>
    have hle := length_filter_label_le_one r.1 R h
    simp only [mergeRows, List.map_append, List.map_map, List.map_cons]
    rcases hF : R.filter (fun q => q.1 = r.1) with _ | ⟨q, t⟩
    · simpa [hF] using ih.cons r.1
    · rw [hF] at hle
      have ht : t = [] := by
        simp only [List.length_cons] at hle
        exact List.length_eq_zero.mp (by omega)
      subst ht
      rw [hF]
      simpa [Function.comp] using ih.cons₂ r.1

/-- Frame-level wrapper: duplicate-free right labels make the merged frame's
labels a sublist of the left frame's labels. -/
theorem labels_mergeFrames_sublist (L R : Frame) (h : (labels R).Nodup) :
    List.Sublist (labels (mergeFrames L R)) (labels L) :=
  labels_mergeRows_sublist R.rows h L.rows

/-- Frame-level wrapper: merged labels live in the left frame's labels. -/
theorem mem_labels_mergeFrames_left {k : String} (L R : Frame)
    (h : k ∈ labels (mergeFrames L R)) : k ∈ labels L :=
  mem_labels_mergeRows_left R.rows L.rows h

/-- Frame-level wrapper: merged labels live in the right frame's labels. -/
theorem mem_labels_mergeFrames_right {k : String} (L R : Frame)
    (h : k ∈ labels (mergeFrames L R)) : k ∈ labels R :=
  mem_labels_mergeRows_right R.rows L.rows h

/-- A frame has as many rows as row labels. -/
theorem rows_length_eq_labels_length (f : Frame) : f.rows.length = (labels f).length :=
  (List.length_map _ _).symm

/-- The accepted-frames accumulator only ever grows. -/
theorem innerJoinAccGo_acc_append :
    ∀ (rest : List Frame) (m : Frame) (uns : List String) (acc : List Frame),
      ∃ t, (innerJoinAccGo rest m uns acc).2.2 = acc ++ t := by
  intro rest
  induction rest with
  | nil => exact fun m uns acc => ⟨[], by simp [innerJoinAccGo]⟩
  | cons frame rest ih =>
    intro m uns acc
    by_cases hdup : frame.cols.any (fun c => m.cols.contains c)
    · simpa only [innerJoinAccGo, hdup, if_true] using ih m uns acc
    · by_cases hz : (mergeFrames m frame).rows.length = 0
      · simpa only [innerJoinAccGo, hdup, if_false, hz, if_true] using
          ih m (uns ++ leadCol frame) acc
      · obtain ⟨t, ht⟩ := ih (mergeFrames m frame) uns (acc ++ [frame])
        refine ⟨frame :: t, ?_⟩
        simp only [innerJoinAccGo, hdup, if_false, hz]
        show (innerJoinAccGo rest (mergeFrames m frame) uns (acc ++ [frame])).2.2
          = acc ++ frame :: t
        rw [ht, List.append_assoc]
        rfl

/-- Loop invariant behind the row-set claim: every label of the running
accumulator lies in the labels of every accepted frame, and this is preserved
to the end of the loop. -/
theorem innerJoinAccGo_subset :
    ∀ (rest : List Frame) (m : Frame) (uns : List String) (acc : List Frame),
      (∀ f ∈ acc, ∀ k ∈ labels m, k ∈ labels f) →
      ∀ f ∈ (innerJoinAccGo rest m uns acc).2.2,
        ∀ k ∈ labels (innerJoinAccGo rest m uns acc).1, k ∈ labels f := by
  intro rest
  induction rest with
  | nil => intro m uns acc hinv; simpa [innerJoinAccGo] using hinv
  | cons frame rest ih =>
    intro m uns acc hinv
    by_cases hdup : frame.cols.any (fun c => m.cols.contains c)
    · simpa only [innerJoinAccGo, hdup, if_true] using ih m uns acc hinv
    · by_cases hz : (mergeFrames m frame).rows.length = 0
      · simpa only [innerJoinAccGo, hdup, if_false, hz, if_true] using
          ih m (uns ++ leadCol frame) acc hinv
      · simp only [innerJoinAccGo, hdup, if_false, hz]
        refine ih (mergeFrames m frame) uns (acc ++ [frame]) ?_
        intro f hf k hk
        rcases List.mem_append.mp hf with hf | hf
        · exact hinv f hf k (mem_labels_mergeFrames_left m frame hk)
        · have hffr : f = frame := by simpa using hf
          rw [hffr]
          exact mem_labels_mergeFrames_right m frame hk

/-- Loop invariant behind the row-count claim: when every accepted frame has
duplicate-free labels, the accumulator's labels stay duplicate-free and its
row count stays below the row count of every accepted frame. -/
theorem innerJoinAccGo_count :
    ∀ (rest : List Frame) (m : Frame) (uns : List String) (acc : List Frame),
      (∀ f ∈ (innerJoinAccGo rest m uns acc).2.2, (labels f).Nodup) →
      (labels m).Nodup →
      (∀ f ∈ acc, m.rows.length ≤ f.rows.length) →
      ∀ f ∈ (innerJoinAccGo rest m uns acc).2.2,
        (innerJoinAccGo rest m uns acc).1.rows.length ≤ f.rows.length := by
  intro rest
  induction rest with
  | nil => intro m uns acc _ _ hle; simpa [innerJoinAccGo] using hle
  | cons frame rest ih =>
    intro m uns acc hnd hm hle
    by_cases hdup : frame.cols.any (fun c => m.cols.contains c)
    · simp only [innerJoinAccGo, hdup, if_true] at hnd ⊢
      exact ih m uns acc hnd hm hle
    · by_cases hz : (mergeFrames m frame).rows.length = 0
      · simp only [innerJoinAccGo, hdup, if_false, hz, if_true] at hnd ⊢
        exact ih m (uns ++ leadCol frame) acc hnd hm hle
      · simp only [innerJoinAccGo, hdup, if_false, hz] at hnd ⊢
        have hfmem : frame ∈ (innerJoinAccGo rest (mergeFrames m frame) uns
            (acc ++ [frame])).2.2 := by
          obtain ⟨t, ht⟩ := innerJoinAccGo_acc_append rest (mergeFrames m frame) uns
            (acc ++ [frame])
          rw [ht]
          simp
        have hfr : (labels frame).Nodup := hnd frame hfmem
        have hsub := labels_mergeFrames_sublist m frame hfr
        have hm2 : (labels (mergeFrames m frame)).Nodup := hm.sublist hsub
        have hlen1 : (mergeFrames m frame).rows.length ≤ m.rows.length := by
          rw [rows_length_eq_labels_length, rows_length_eq_labels_length m]
          exact hsub.length_le
        have hlen2 : (mergeFrames m frame).rows.length ≤ frame.rows.length := by
          rw [rows_length_eq_labels_length, rows_length_eq_labels_length frame]
          refine List.Subperm.length_le (hm2.subperm ?_)
          intro k hk
          exact mem_labels_mergeFrames_right m frame hk
        refine ih (mergeFrames m frame) uns (acc ++ [frame]) hnd hm2 ?_
        intro f hf
        rcases List.mem_append.mp hf with hf | hf
        · exact le_trans hlen1 (hle f hf)
        · have hffr : f = frame := by simpa using hf
          rw [hffr]
          exact hlen2

/-- Reading a value list back through an enumeration of equal length is the
identity. -/
theorem getD_enum_map (v : List Int) (cs : List String) (h : v.length = cs.length) :
    cs.enum.map (fun p => v.getD p.1 0) = v := by
  apply List.ext_getElem
  · simp [List.enum_length]; omega
  · intro i h1 h2
    simp only [List.getElem_map, List.getElem_enum]
    exact List.getD_eq_getElem v 0 h2

/-- The row labels of a transposed frame are the original column labels. -/
theorem labels_transpose (f : Frame) : labels (transpose f) = f.cols := by
  have h : (Prod.fst ∘ fun p : Nat × String =>
      (p.2, f.rows.map (fun r => r.2.getD p.1 0))) = Prod.snd := by
    funext p; rfl
  simp only [labels, transpose, List.map_map]
  rw [h]
  exact List.enum_map_snd f.cols

/-- A transposed frame has one row per original column. -/
theorem rows_length_transpose (f : Frame) : (transpose f).rows.length = f.cols.length := by
  simp [transpose, List.enum_length]

/-- Pandas double transpose is the identity on a rectangular frame. -/
theorem transpose_transpose (f : Frame)
    (hrect : ∀ r ∈ f.rows, r.2.length = f.cols.length) :
    transpose (transpose f) = f := by
  have hcols : (transpose (transpose f)).cols = f.cols := labels_transpose f
  have hrows : (transpose (transpose f)).rows = f.rows := by
    apply List.ext_getElem
    · simp [transpose, List.enum_length, labels]
    · intro i h1 h2
      have h2' : i < f.rows.length := by
        simpa [transpose, List.enum_length] using h2
      simp only [transpose, List.getElem_map, List.getElem_enum, List.map_map]
      have hinner : List.map ((fun r => r.2.getD i 0) ∘ fun p =>
          (p.2, List.map (fun r => r.2.getD p.1 0) f.rows)) f.cols.enum
          = f.rows[i].2 := by
        have hstep : ∀ p ∈ f.cols.enum,
            ((fun r => r.2.getD i 0) ∘ fun p =>
              (p.2, List.map (fun r => r.2.getD p.1 0) f.rows)) p
            = f.rows[i].2.getD p.1 0 := by
          intro p _
          simp only [Function.comp]
          rw [List.getD_eq_getElem _ 0 (by simpa using h2'), List.getElem_map]
        rw [List.map_congr_left hstep]
        exact getD_enum_map _ _ (hrect _ (List.getElem_mem h2'))
      rw [hinner]
  calc transpose (transpose f)
      = Frame.mk (transpose (transpose f)).cols (transpose (transpose f)).rows := rfl
    _ = Frame.mk f.cols f.rows := by rw [hcols, hrows]
    _ = f := rfl

/-- C3: merge-collapse rollback is atomic.  When a candidate frame passes the
duplicate-column check but its inner join with the accumulator has zero rows,
the loop continues with the accumulator (and its backup) exactly as they were
before the step, and the unsmashable list grows by exactly the candidate's
lead column — by nothing when the candidate has no columns (the
`frame.columns[0]` read raises and is swallowed). -/
theorem C3_rollback_atomic (m frame : Frame) (rest : List Frame) (uns : List String)
    (hdup : frame.cols.any (fun c => m.cols.contains c) = false)
    (hzero : (mergeFrames m frame).rows.length = 0) :
    innerJoinGo (frame :: rest) m m uns = innerJoinGo rest m m (uns ++ leadCol frame)
    ∧ innerJoinGo [frame] m m uns = (m, uns ++ leadCol frame)
    ∧ (∀ c cs, frame.cols = c :: cs → uns ++ leadCol frame = uns ++ [c])
    ∧ (frame.cols = [] → uns ++ leadCol frame = uns) := by
  have hdup' : ¬ ((frame.cols.any fun c => m.cols.contains c) = true) := by
    rw [hdup]; decide
  refine ⟨?_, ?_, ?_, ?_⟩
  · simp only [innerJoinGo, hdup', if_false, eq_true hzero, if_true]
    rfl
  · simp only [innerJoinGo, hdup', if_false, eq_true hzero, if_true]
    rfl
  · intro c cs hc
    simp [leadCol, hc]
  · intro hc
    simp [leadCol, hc]

/-- C3 witness: concrete rollback of `frameCD` against `frameAB` (disjoint
feature sets). -/
theorem C3_rollback_atomic_witness :
    innerJoinGo [frameCD] frameAB frameAB [] = innerJoinGo [] frameAB frameAB ([] ++ leadCol frameCD)
    ∧ innerJoinGo [frameCD] frameAB frameAB [] = (frameAB, [] ++ leadCol frameCD)
    ∧ (∀ c cs, frameCD.cols = c :: cs → [] ++ leadCol frameCD = [] ++ [c])
    ∧ (frameCD.cols = [] → [] ++ leadCol frameCD = []) :=
  C3_rollback_atomic frameAB frameCD [] [] (by decide) (by decide)

/-- C4: a candidate frame with any column already present in the accumulator
is skipped in full: the loop state (accumulator, backup, unsmashable list) is
exactly what it was before the step, and a step on that frame alone returns
the accumulator and unsmashable list unchanged. -/
theorem C4_duplicate_column_skip (m backup frame : Frame) (rest : List Frame)
    (uns : List String)
    (hdup : frame.cols.any (fun c => m.cols.contains c) = true) :
    innerJoinGo (frame :: rest) m backup uns = innerJoinGo rest m backup uns
    ∧ innerJoinGo [frame] m backup uns = (m, uns) := by
  constructor
  · simp only [innerJoinGo, eq_true hdup, if_true]
  · simp only [innerJoinGo, eq_true hdup, if_true]

/-- C4 witness: merging `frameAB` into itself repeats the column s1, so the
frame is skipped whole. -/
theorem C4_duplicate_column_skip_witness :
    innerJoinGo [frameAB] frameAB frameAB [] = innerJoinGo [] frameAB frameAB []
    ∧ innerJoinGo [frameAB] frameAB frameAB [] = (frameAB, []) :=
  C4_duplicate_column_skip frameAB frameAB frameAB [] [] (by decide)

/-- C5 counterexample: with duplicated row labels the pandas inner join is a
cross join, so the merged row count can exceed every contributing frame's row
count.  `dupRowsF` and `dupRowsG` (two rows each, label A twice) are both
accepted, yet the final matrix has four rows, refuting the claimed bound
`final row count ≤ minimum accepted row count`. -/
theorem C5_counterexample :
    (inner_join_accepted dupRowsF [dupRowsG] []).2.2 = [dupRowsF, dupRowsG]
    ∧ dupRowsF.rows.length = 2
    ∧ dupRowsG.rows.length = 2
    ∧ (inner_join dupRowsF [dupRowsG] []).1.rows.length = 4
    ∧ ¬((inner_join dupRowsF [dupRowsG] []).1.rows.length ≤ dupRowsG.rows.length) := by
  decide

/-- C5 amended: unconditionally, every row label of the final merged matrix
lies in the label set of every accepted frame (the first frame and each frame
neither skipped for a duplicate column nor rolled back) — and, provided every
accepted frame has duplicate-free row labels, the final row count is at most
the row count of every accepted frame (hence at most their minimum).  The
instrumented accumulator agrees with `_inner_join`. -/
theorem C5_rowset_bound (first : Frame) (rest : List Frame) (uns : List String) :
    (∀ f ∈ (inner_join_accepted first rest uns).2.2,
        ∀ k ∈ labels (inner_join_accepted first rest uns).1, k ∈ labels f)
    ∧ ((∀ f ∈ (inner_join_accepted first rest uns).2.2, (labels f).Nodup) →
        ∀ f ∈ (inner_join_accepted first rest uns).2.2,
          (inner_join_accepted first rest uns).1.rows.length ≤ f.rows.length)
    ∧ (inner_join first rest uns).1 = (inner_join_accepted first rest uns).1 := by
  refine ⟨?_, ?_, ?_⟩
  · refine innerJoinAccGo_subset rest first uns [first] ?_
    intro f hf k hk
    have hffr : f = first := by simpa using hf
    rw [hffr]; exact hk
  · intro hnd
    have hmem : first ∈ (inner_join_accepted first rest uns).2.2 := by
      obtain ⟨t, ht⟩ := innerJoinAccGo_acc_append rest first uns [first]
      unfold inner_join_accepted
      rw [ht]; simp
    refine innerJoinAccGo_count rest first uns [first] hnd (hnd first hmem) ?_
    intro f hf
    have hffr : f = first := by simpa using hf
    rw [hffr]
  · exact (congrArg Prod.fst (innerJoinAccGo_eq rest first uns [first])).symm

/-- C5 witness: frames over feature sets B,C and B,D with duplicate-free
labels; both are accepted, the label-subset property holds, and discharging
the duplicate-free proviso yields the row-count bound for the single-row
result. -/
theorem C5_rowset_bound_witness :
    ((∀ f ∈ (inner_join_accepted frameBC [frameBD] []).2.2,
        ∀ k ∈ labels (inner_join_accepted frameBC [frameBD] []).1, k ∈ labels f)
    ∧ ((∀ f ∈ (inner_join_accepted frameBC [frameBD] []).2.2, (labels f).Nodup) →
        ∀ f ∈ (inner_join_accepted frameBC [frameBD] []).2.2,
          (inner_join_accepted frameBC [frameBD] []).1.rows.length ≤ f.rows.length)
    ∧ (inner_join frameBC [frameBD] []).1 = (inner_join_accepted frameBC [frameBD] []).1)
    ∧ (∀ f ∈ (inner_join_accepted frameBC [frameBD] []).2.2,
        (inner_join_accepted frameBC [frameBD] []).1.rows.length ≤ f.rows.length) :=
  ⟨C5_rowset_bound frameBC [frameBD] [],
   (C5_rowset_bound frameBC [frameBD] []).2.1 (by decide)⟩

/-- C7: the merge result is not invariant under input reordering.  The lists
`[frameAB, frameCD]` and `[frameCD, frameAB]` are permutations of one
another, the original order triggers a zero-row rollback, and the two orders
produce different final matrices. -/
theorem C7_order_sensitivity :
    List.Perm [frameAB, frameCD] [frameCD, frameAB]
    ∧ (mergeFrames frameAB frameCD).rows.length = 0
    ∧ (inner_join frameAB [frameCD] []).1 ≠ (inner_join frameCD [frameAB] []).1 := by
  decide

/-- C8: with `scale_by = NONE` the scaler block is the double transpose,
which is the identity on a (rectangular) matrix; with any of `MINMAX`,
`STANDARD` or `ROBUST`, for every shape-preserving external sklearn
transform the output keeps exactly the input's row labels, column labels and
row/column counts, changing only values. -/
theorem C8_scaler_shape (merged : Frame) (tr : List (List Int) → List (List Int))
    (s : String)
    (hrect : ∀ r ∈ merged.rows, r.2.length = merged.cols.length)
    (htr : ∀ vals, (tr vals).length = vals.length) :
    smash_scale tr "NONE" merged = merged
    ∧ ((s = "MINMAX" ∨ s = "STANDARD" ∨ s = "ROBUST") →
        labels (smash_scale tr s merged) = labels merged
        ∧ (smash_scale tr s merged).cols = merged.cols
        ∧ (smash_scale tr s merged).rows.length = merged.rows.length
        ∧ (smash_scale tr s merged).cols.length = merged.cols.length) := by
  constructor
  · have hnone : smash_scale tr "NONE" merged = transpose (transpose merged) := by
      simp [smash_scale]
    rw [hnone]
    exact transpose_transpose merged hrect
  · intro hs
    have hsne : s ≠ "NONE" := by
      rcases hs with h | h | h <;> rw [h] <;> decide
    have hval : smash_scale tr s merged
        = transpose (mkDataFrame (tr (matrixValues (transpose merged)))
            (labels (transpose merged)) (transpose merged).cols) := by
      simp [smash_scale, hsne]
    have hlenT : (labels (transpose merged)).length = merged.cols.length := by
      rw [labels_transpose]
    have hlenV : (tr (matrixValues (transpose merged))).length = merged.cols.length := by
      rw [htr]
      simpa [matrixValues] using rows_length_transpose merged
    have hzip : ((labels (transpose merged)).zip
        (tr (matrixValues (transpose merged)))).map Prod.fst
        = labels (transpose merged) :=
      List.map_fst_zip _ _ (by rw [hlenT, hlenV])
    refine ⟨?_, ?_, ?_, ?_⟩
    · rw [hval]
      exact labels_transpose _
    · rw [hval]
      show labels (mkDataFrame (tr (matrixValues (transpose merged)))
        (labels (transpose merged)) (transpose merged).cols) = merged.cols
      show ((labels (transpose merged)).zip
        (tr (matrixValues (transpose merged)))).map Prod.fst = merged.cols
      rw [hzip, labels_transpose]
    · rw [hval, rows_length_transpose]
      show (labels merged).length = merged.rows.length
      exact (rows_length_eq_labels_length merged).symm
    · rw [hval]
      show (labels (mkDataFrame (tr (matrixValues (transpose merged)))
        (labels (transpose merged)) (transpose merged).cols)).length = merged.cols.length
      show (((labels (transpose merged)).zip
        (tr (matrixValues (transpose merged)))).map Prod.fst).length = merged.cols.length
      rw [hzip, labels_transpose]

/-- C8 witness: the rectangular frame `frameAB` with the identity standing in
for the sklearn transform and method MINMAX. -/
theorem C8_scaler_shape_witness :
    smash_scale id "NONE" frameAB = frameAB
    ∧ (("MINMAX" = "MINMAX" ∨ ("MINMAX" : String) = "STANDARD"
          ∨ ("MINMAX" : String) = "ROBUST") →
        labels (smash_scale id "MINMAX" frameAB) = labels frameAB
        ∧ (smash_scale id "MINMAX" frameAB).cols = frameAB.cols
        ∧ (smash_scale id "MINMAX" frameAB).rows.length = frameAB.rows.length
        ∧ (smash_scale id "MINMAX" frameAB).cols.length = frameAB.cols.length) :=
  C8_scaler_shape frameAB id "MINMAX" (by decide) (fun _ => rfl)

/-- C9: for every species dictionary (and fetched release), the factory
returns the instance built by the base `EnsemblUrlBuilder` constructor; in
particular the assembly is taken from `assembly_name` untouched (no
TIGR-to-CADRE rename), the filename species is the capitalized `name` key
(never the Protists/Fungi `species` key), and the generated GTF URL is the
base template instantiation. -/
theorem C9_factory_always_base (release : String) (s : Species) :
    ensembl_url_builder_factory release s = EnsemblUrlBuilder_init release s
    ∧ (ensembl_url_builder_factory release s).assembly = s.assembly_name
    ∧ (ensembl_url_builder_factory release s).filename_species = pyCapitalize s.name
    ∧ build_gtf_url (ensembl_url_builder_factory release s)
        = "ftp://ftp." ++ ("ensembl.org/pub/release-" ++ release) ++ "/gtf/" ++ s.name
            ++ "/" ++ pyCapitalize s.name ++ "." ++ s.assembly_name ++ "." ++ release
            ++ ".gtf.gz" :=
  ⟨rfl, rfl, rfl, rfl⟩

/-- The batch-verification loop accepts exactly the lists whose urls all
equal the reference url. -/
theorem verifyLoop_ok_iff (u : String) :
    ∀ bs : List Batch,
      (verifyLoop u bs = Except.ok () ↔ ∀ b ∈ bs, b.download_url = u) := by
  intro bs
  induction bs with
  | nil => simp [verifyLoop]
  | cons b bs ih =>
    by_cases hb : b.download_url = u
    · simp [verifyLoop, hb, ih]
    · simp [verifyLoop, hb]

/-- The batch-verification loop either accepts or raises the one fixed
`ValueError` message. -/
theorem verifyLoop_total (u : String) :
    ∀ bs : List Batch,
      verifyLoop u bs = Except.ok ()
      ∨ verifyLoop u bs
          = Except.error "A batch doesn't have the same download url as other batches." := by
  intro bs
  induction bs with
  | nil => exact Or.inl rfl
  | cons b bs ih =>
    by_cases hb : b.download_url ≠ u
    · right; simp [verifyLoop, hb]
    · simpa [verifyLoop, hb] using ih

/-- C10: `_verify_batch_grouping` raises `ValueError` if and only if some
batch has a download url differing from the first batch's; an empty list, or
a list all of whose batches share the first batch's url, returns normally
(and the function never modifies a batch). -/
theorem C10_verify_batch_grouping (batches : List Batch) :
    (verify_batch_grouping batches = Except.ok () ↔
      ∀ b ∈ batches, ∀ b0, batches.head? = some b0 → b.download_url = b0.download_url)
    ∧ (verify_batch_grouping batches
        = Except.error "A batch doesn't have the same download url as other batches." ↔
      ∃ b0, batches.head? = some b0 ∧ ∃ b ∈ batches, b.download_url ≠ b0.download_url) := by
  cases batches with
  | nil => exact ⟨by simp [verify_batch_grouping], by simp [verify_batch_grouping]⟩
  | cons b0 bs =>
    have hok := verifyLoop_ok_iff b0.download_url (b0 :: bs)
    constructor
    · constructor
      · intro h b hb b0' hb0'
        have hb0'' : b0' = b0 := by
          simpa using hb0'.symm
        rw [hb0'']
        exact (hok.mp h) b hb
      · intro h
        exact hok.mpr (fun b hb => h b hb b0 rfl)
    · constructor
      · intro herr
        refine ⟨b0, rfl, ?_⟩
        by_contra hall
        push_neg at hall
        have hok' : verify_batch_grouping (b0 :: bs) = Except.ok () :=
          hok.mpr hall
        rw [hok'] at herr
        exact Except.noConfusion herr
      · rintro ⟨b0', hb0', b, hb, hne⟩
        have hb0'' : b0' = b0 := by simpa using hb0'.symm
        rw [hb0''] at hne
        rcases verifyLoop_total b0.download_url (b0 :: bs) with he | he
        · exact absurd ((hok.mp he) b hb) hne
        · exact he

/-- C1: the claimed run-wide monotonicity of `Dataset.success` fails on the
code.  In a run whose only key fails quantile normalization while the archive
step succeeds, `_smash_key` sets and persists `dataset.success = False`, but
the tail of `_smash_all` then unconditionally sets `dataset.success = True`
and persists again, so the recorded assignment trace is `[false, true]` —
non-monotone — and the dataset ends persisted as successful even though its
`failure_reason` is set and the job stays failed.  The later `_upload` and
`_update_result_objects` stages leave this state in place. -/
theorem C1_success_flag_reset :
    qnFailRun.success_trace = [false, true]
    ∧ successTraceMonotone qnFailRun.success_trace = false
    ∧ qnFailRun.dataset.success = some true
    ∧ qnFailRun.dataset.failure_reason = "Failure reason: qn exploded"
    ∧ qnFailRun.job.success = some false
    ∧ qnFailAfterStages.success_trace = [false, true]
    ∧ qnFailAfterStages.dataset.success = some true := by
  decide

/-- C2 counterexample: an S3 upload failure inside `_upload` flips the job's
success flag from true to false (and records a failure reason), contradicting
the claim that delivery-stage failures never change job success state. -/
theorem C2_counterexample :
    preUploadCtx.job.success = some true
    ∧ uploadFailRun.job.success = some false
    ∧ uploadFailRun.job.success ≠ preUploadCtx.job.success
    ∧ uploadFailRun.job.failure_reason = "Failure reason: upload failed" := by
  decide

/-- `_notify` never changes the job record when it returns normally. -/
theorem notify_preserves_job (slack : Except String Unit) (er : EmailOutcome)
    (c c2 : Ctx) (h : notify slack er c = Except.ok c2) : c2.job = c.job := by
  unfold notify at h
  by_cases h1 : (!(c.upload_flag && c.running_in_cloud)) = true
  · rw [if_pos h1] at h
    cases h
    rfl
  · rw [if_neg h1] at h
    by_cases h2 : c.dataset.email_address ≠ ""
    · rw [if_pos h2] at h
      cases er with
      | ok =>
        by_cases h3 : c.job.success = some false
        · rw [show (match EmailOutcome.ok with
            | EmailOutcome.ok =>
              if c.job.success = some false then Except.ok { c with success := some false }
              else Except.ok c
            | EmailOutcome.clientError _ =>
              (Except.error "ClientError while notifying" : Except String Ctx)
            | EmailOutcome.genError =>
              Except.error "General failure when trying to send email.")
            = if c.job.success = some false then Except.ok { c with success := some false }
              else Except.ok c from rfl, if_pos h3] at h
          cases h
          rfl
        · rw [show (match EmailOutcome.ok with
            | EmailOutcome.ok =>
              if c.job.success = some false then Except.ok { c with success := some false }
              else Except.ok c
            | EmailOutcome.clientError _ =>
              (Except.error "ClientError while notifying" : Except String Ctx)
            | EmailOutcome.genError =>
              Except.error "General failure when trying to send email.")
            = if c.job.success = some false then Except.ok { c with success := some false }
              else Except.ok c from rfl, if_neg h3] at h
          cases h
          rfl
      | clientError msg => exact Except.noConfusion h
      | genError => exact Except.noConfusion h
    · rw [if_neg h2] at h
      cases h
      rfl

/-- C2 amended: an upload failure in `_upload` sets the job's success flag to
false and records the failure reason (returning normally, without touching
the dataset); `_notify` absorbs slack failures and never changes the job
record when it returns, but an email failure makes it raise a
`ProcessorJobError` instead of being absorbed. -/
theorem C2_delivery_failure (c : Ctx) (file e emsg : String)
    (slack : Except String Unit) (er : EmailOutcome)
    (hfile : c.output_file = some file) (hup : c.upload_flag = true)
    (hcloud : c.running_in_cloud = true) :
    (upload (Except.error e) c).job.success = some false
    ∧ (upload (Except.error e) c).job.failure_reason = "Failure reason: " ++ e
    ∧ (upload (Except.error e) c).dataset = c.dataset
    ∧ (∀ c2, notify slack er c = Except.ok c2 → c2.job = c.job)
    ∧ (c.dataset.email_address ≠ "" → er = EmailOutcome.clientError emsg →
        notify slack er c = Except.error "ClientError while notifying")
    ∧ (c.dataset.email_address ≠ "" → er = EmailOutcome.genError →
        notify slack er c = Except.error "General failure when trying to send email.") := by
  have hu : upload (Except.error e) c
      = { c with job := { c.job with
                            success := some false,
                            failure_reason := "Failure reason: " ++ e } } := by
    unfold upload
    rw [hfile]
    simp [hup, hcloud]
  refine ⟨?_, ?_, ?_, ?_, ?_, ?_⟩
  · rw [hu]
  · rw [hu]
  · rw [hu]
  · intro c2 h
    exact notify_preserves_job slack er c c2 h
  · intro hmail her
    rw [her]
    simp [notify, hup, hcloud, hmail]
  · intro hmail her
    rw [her]
    simp [notify, hup, hcloud, hmail]

/-- C2 amended witness: concrete upload failure on a successful job, and a
general email failure raising out of `_notify`. -/
theorem C2_delivery_failure_witness :
    (upload (Except.error "boom") preUploadCtxEmail).job.success = some false
    ∧ (upload (Except.error "boom") preUploadCtxEmail).job.failure_reason
        = "Failure reason: " ++ "boom"
    ∧ (upload (Except.error "boom") preUploadCtxEmail).dataset = preUploadCtxEmail.dataset
    ∧ (∀ c2, notify (Except.error "slack down") EmailOutcome.genError preUploadCtxEmail
          = Except.ok c2 → c2.job = preUploadCtxEmail.job)
    ∧ (preUploadCtxEmail.dataset.email_address ≠ "" →
        EmailOutcome.genError = EmailOutcome.clientError "x" →
        notify (Except.error "slack down") EmailOutcome.genError preUploadCtxEmail
          = Except.error "ClientError while notifying")
    ∧ (preUploadCtxEmail.dataset.email_address ≠ "" →
        EmailOutcome.genError = EmailOutcome.genError →
        notify (Except.error "slack down") EmailOutcome.genError preUploadCtxEmail
          = Except.error "General failure when trying to send email.") :=
  C2_delivery_failure preUploadCtxEmail "/home/user/data_store/smashed/1.zip" "boom" "x"
    (Except.error "slack down") EmailOutcome.genError rfl rfl rfl

/-- C6 counterexample: when the job already carries a failure reason from an
earlier failure, a new quantile-normalization failure in `_smash_key` does
not capture its detail into the job's or dataset's `failure_reason` (the
assignment is guarded by `if not job.failure_reason`), even though the
failure path runs to completion. -/
theorem C6_counterexample :
    secondFailRun.dataset.success = some false
    ∧ secondFailRun.job.success = some false
    ∧ secondFailRun.failure_reason = some "second"
    ∧ secondFailRun.job.failure_reason ≠ "Failure reason: " ++ "second"
    ∧ secondFailRun.dataset.failure_reason ≠ "Failure reason: " ++ "second"
    ∧ secondFailRun.job.failure_reason = "Failure reason: first"
    ∧ secondFailRun.dataset.failure_reason = "Failure reason: first" := by
  decide

/-- C6 amended: on a quantile-normalization failure `_smash_key` sets the
dataset's and job's success flags to false, persists the dataset immediately
(the persisted snapshot is the returned dataset state), records the failure
detail in the context's `failure_reason`, and returns the context normally —
but the detail is copied into the job's and dataset's `failure_reason` only
when the job had no failure reason yet; an existing one is kept. -/
theorem C6_qn_failure (c : Ctx) (tr : List (List Int) → List (List Int))
    (key msg : String) (f0 : Frame) (fs : List Frame)
    (hsf : c.dataset.quant_sf_only = false)
    (hqn : c.dataset.quantile_normalize = true) :
    (smash_key (QNOutcome.err msg) tr key (f0 :: fs) c).dataset.success = some false
    ∧ (smash_key (QNOutcome.err msg) tr key (f0 :: fs) c).job.success = some false
    ∧ (smash_key (QNOutcome.err msg) tr key (f0 :: fs) c).failure_reason = some msg
    ∧ (smash_key (QNOutcome.err msg) tr key (f0 :: fs) c).success_trace
        = c.success_trace ++ [false]
    ∧ (smash_key (QNOutcome.err msg) tr key (f0 :: fs) c).saved_datasets
        = c.saved_datasets ++ [(smash_key (QNOutcome.err msg) tr key (f0 :: fs) c).dataset]
    ∧ (c.job.failure_reason = "" →
        (smash_key (QNOutcome.err msg) tr key (f0 :: fs) c).job.failure_reason
            = "Failure reason: " ++ msg
        ∧ (smash_key (QNOutcome.err msg) tr key (f0 :: fs) c).dataset.failure_reason
            = "Failure reason: " ++ msg)
    ∧ (c.job.failure_reason ≠ "" →
        (smash_key (QNOutcome.err msg) tr key (f0 :: fs) c).job.failure_reason
            = c.job.failure_reason
        ∧ (smash_key (QNOutcome.err msg) tr key (f0 :: fs) c).dataset.failure_reason
            = c.dataset.failure_reason) := by
  have hsf' : ¬ (c.dataset.quant_sf_only = true) := by rw [hsf]; decide
  by_cases hfr : c.job.failure_reason = ""
  · simp [smash_key, hsf', eq_true hqn, setDatasetSuccess, saveDataset, hfr]
  · simp [smash_key, hsf', eq_true hqn, setDatasetSuccess, saveDataset, hfr]

/-- C6 amended witness: the single-key QN failure context. -/
theorem C6_qn_failure_witness :
    (smash_key (QNOutcome.err "boom") id "K" [frameAB] qnFailCtx).dataset.success = some false
    ∧ (smash_key (QNOutcome.err "boom") id "K" [frameAB] qnFailCtx).job.success = some false
    ∧ (smash_key (QNOutcome.err "boom") id "K" [frameAB] qnFailCtx).failure_reason
        = some "boom"
    ∧ (smash_key (QNOutcome.err "boom") id "K" [frameAB] qnFailCtx).success_trace
        = qnFailCtx.success_trace ++ [false]
    ∧ (smash_key (QNOutcome.err "boom") id "K" [frameAB] qnFailCtx).saved_datasets
        = qnFailCtx.saved_datasets
            ++ [(smash_key (QNOutcome.err "boom") id "K" [frameAB] qnFailCtx).dataset]
    ∧ (qnFailCtx.job.failure_reason = "" →
        (smash_key (QNOutcome.err "boom") id "K" [frameAB] qnFailCtx).job.failure_reason
            = "Failure reason: " ++ "boom"
        ∧ (smash_key (QNOutcome.err "boom") id "K" [frameAB] qnFailCtx).dataset.failure_reason
            = "Failure reason: " ++ "boom")
    ∧ (qnFailCtx.job.failure_reason ≠ "" →
        (smash_key (QNOutcome.err "boom") id "K" [frameAB] qnFailCtx).job.failure_reason
            = qnFailCtx.job.failure_reason
        ∧ (smash_key (QNOutcome.err "boom") id "K" [frameAB] qnFailCtx).dataset.failure_reason
            = qnFailCtx.dataset.failure_reason) :=
  C6_qn_failure qnFailCtx id "K" "boom" frameAB [] rfl rfl

end Refinebio
